import Mathlib

/-!
Verification of the procedural voxel-terrain pipeline of the sandbox
repository (main implementation file: the large script with biomes, caves,
water craters, and the chunk stream manager).

Modelling conventions:
* JavaScript numbers on the arithmetic paths used here (integer coordinates,
  `+ * - /` on decimal literals, `Math.floor/ceil/round/abs/min/max`, and the
  clamp helper) are modelled exactly over `ℚ`/`ℤ`; every decimal literal of
  the source is an exact rational.
* `Math.sin` is a transcendental float primitive; the computable pipeline is
  parametrised by an arbitrary `jsSin : ℚ → ℚ` standing for it, so every
  theorem below about terrain/water/voxels holds for the actual sine as a
  special case.  A separate real-valued model (`hash2R`, using `Real.sin`)
  is used for the one claim about the noise kernel itself.
* The per-column `Int16Array`/`Int8Array` caches are modelled as functions
  from the flattened column index to `ℤ` with the source's `-1` sentinel
  (all stored values are tiny, so no 16-bit wraparound can occur).
* The world seed is an integer; `setWorldSeed` derives the two offsets
  `seedOffsetA`/`seedOffsetB` from it exactly as the source does.
-/

namespace Sandbox

/-- WORLD_SIZE constant of the source (84 * 9 = 756). -/
def WORLD_SIZE : ℤ := 84 * 9

/-- Exact model of JavaScript `Math.round` (round half toward +infinity). -/
def jsRound (q : ℚ) : ℤ := ⌊q + 1 / 2⌋

/-- Model of `THREE.MathUtils.clamp(v, lo, hi) = Math.max(lo, Math.min(hi, v))`. -/
def jsClamp (v lo hi : ℤ) : ℤ := max lo (min hi v)

/-- MAX_HEIGHT constant: `Math.round(16 * 1.3)` (= 21). -/
def MAX_HEIGHT : ℤ := jsRound (16 * 1.3)

/-- OCEAN_LEVEL constant. -/
def OCEAN_LEVEL : ℤ := 8

/-- CHUNK_SIZE constant. -/
def CHUNK_SIZE : ℤ := 16

/-- WORLD_CHUNKS constant: `Math.ceil(WORLD_SIZE / CHUNK_SIZE)` (= 48). -/
def WORLD_CHUNKS : ℤ := ⌈(WORLD_SIZE : ℚ) / (CHUNK_SIZE : ℚ)⌉

/-- MAX_CHUNK_BUILDS_PER_FRAME constant (per-frame chunk build budget). -/
def MAX_CHUNK_BUILDS_PER_FRAME : ℤ := 1

/-- Block type constant: air. -/
def BLOCK_AIR : ℤ := 0

/-- Block type constant: stone. -/
def BLOCK_STONE : ℤ := 1

/-- Block type constant: dirt. -/
def BLOCK_DIRT : ℤ := 2

/-- Block type constant: grass. -/
def BLOCK_GRASS : ℤ := 3

/-- Block type constant: wood. -/
def BLOCK_WOOD : ℤ := 4

/-- Block type constant: leaf. -/
def BLOCK_LEAF : ℤ := 5

/-- Block type constant: water. -/
def BLOCK_WATER : ℤ := 6

/-- Block type constant: sand. -/
def BLOCK_SAND : ℤ := 7

/-- Block type constant: apple. -/
def BLOCK_APPLE : ℤ := 8

/-- Block type constant: snow. -/
def BLOCK_SNOW : ℤ := 9

/-- Biome constant: plains. -/
def BIOME_PLAINS : ℤ := 0

/-- Biome constant: desert. -/
def BIOME_DESERT : ℤ := 1

/-- Biome constant: snow. -/
def BIOME_SNOW : ℤ := 2

/-- TREE_SPACING constant. -/
def TREE_SPACING : ℤ := 6

/-- TREE_CANOPY_RADIUS constant. -/
def TREE_CANOPY_RADIUS : ℤ := 1

/-- TREE_DENSITY_THRESHOLD constant. -/
def TREE_DENSITY_THRESHOLD : ℚ := 0.84

/-- TREE_LEAF_CHANCE constant. -/
def TREE_LEAF_CHANCE : ℚ := 0.8

/-- TREE_APPLE_CHANCE constant. -/
def TREE_APPLE_CHANCE : ℚ := 0.08

/-- SAND_WATER_RADIUS constant. -/
def SAND_WATER_RADIUS : ℤ := 3

/-- MOUNTAIN_HEIGHT_THRESHOLD constant (MAX_HEIGHT - 4 = 17). -/
def MOUNTAIN_HEIGHT_THRESHOLD : ℤ := MAX_HEIGHT - 4

/-- CAVE_MIN_Y constant. -/
def CAVE_MIN_Y : ℤ := 3

/-- CAVE_SCALE constant. -/
def CAVE_SCALE : ℚ := 0.16

/-- CAVE_THRESHOLD constant. -/
def CAVE_THRESHOLD : ℚ := 0.78

/-- Fractional-part helper of the source: `fract(v) = v - Math.floor(v)`. -/
def fract (v : ℚ) : ℚ := v - ⌊v⌋

/-- Seed offset A set by `setWorldSeed`: `(seed % 997) * 0.1337`. -/
def seedOffsetA (seed : ℤ) : ℚ := ((seed % 997 : ℤ) : ℚ) * 0.1337

/-- Seed offset B set by `setWorldSeed`: `(seed % 577) * 0.2811`. -/
def seedOffsetB (seed : ℤ) : ℚ := ((seed % 577 : ℤ) : ℚ) * 0.2811

/-- The seeded sine-scramble noise primitive `hash2`, parametrised by the
float sine `jsSin`. -/
def hash2 (jsSin : ℚ → ℚ) (seed : ℤ) (x z : ℚ) : ℚ :=
  fract (jsSin ((x + seedOffsetA seed) * 127.1 + (z + seedOffsetB seed) * 311.7 +
    (seed : ℚ) * 0.013) * 43758.5453123)

/-- Bilinear value noise `smoothNoise` with cubic-Hermite easing, exactly as
in the source. -/
def smoothNoise (jsSin : ℚ → ℚ) (seed : ℤ) (x z : ℚ) : ℚ :=
  let x0 : ℤ := ⌊x⌋
  let z0 : ℤ := ⌊z⌋
  let tx : ℚ := x - (x0 : ℚ)
  let tz : ℚ := z - (z0 : ℚ)
  let a := hash2 jsSin seed (x0 : ℚ) (z0 : ℚ)
  let b := hash2 jsSin seed ((x0 : ℚ) + 1) (z0 : ℚ)
  let c := hash2 jsSin seed (x0 : ℚ) ((z0 : ℚ) + 1)
  let d := hash2 jsSin seed ((x0 : ℚ) + 1) ((z0 : ℚ) + 1)
  let sx := tx * tx * (3 - 2 * tx)
  let sz := tz * tz * (3 - 2 * tz)
  let nx0 := a + (b - a) * sx
  let nx1 := c + (d - c) * sx
  nx0 + (nx1 - nx0) * sz

/-- Flattened per-column cache index: `x + z * WORLD_SIZE`. -/
def worldColumnIndex (x z : ℤ) : ℤ := x + z * WORLD_SIZE

/-- The miss-branch computation of `getTerrainHeightCached` as a pure
function (the clamp at the head is the source's clamp of the arguments;
clamping is idempotent, so this is also the value computed for already
clamped coordinates). -/
def terrainHeightPure (jsSin : ℚ → ℚ) (seed : ℤ) (x z : ℤ) : ℤ :=
  let clampedX := jsClamp x 0 (WORLD_SIZE - 1)
  let clampedZ := jsClamp z 0 (WORLD_SIZE - 1)
  let broad := smoothNoise jsSin seed ((clampedX : ℚ) * 0.05) ((clampedZ : ℚ) * 0.05) * 10
  let rolling := smoothNoise jsSin seed ((clampedX : ℚ) * 0.12 + 42) ((clampedZ : ℚ) * 0.12 + 12) * 6
  let detail := smoothNoise jsSin seed ((clampedX : ℚ) * 0.23 + 90) ((clampedZ : ℚ) * 0.23 + 37) * 2
  let mountainMask :=
    max 0 (smoothNoise jsSin seed ((clampedX : ℚ) * 0.013 + 140) ((clampedZ : ℚ) * 0.013 + 70) - 0.56) / 0.44
  let mountainRidge := smoothNoise jsSin seed ((clampedX : ℚ) * 0.028 + 220) ((clampedZ : ℚ) * 0.028 + 160)
  let mountainHeight := mountainMask * (0.55 + mountainRidge) * 28
  max 2 (min MAX_HEIGHT (jsRound (2 + broad + rolling + detail + mountainHeight)))

/-- The two per-column caches touched by the height/water queries
(`terrainHeightCache` and `waterHeightCache`), as total maps from the
flattened index with the source's `-1` "unset" sentinel. -/
structure WorldCaches where
  terrain : ℤ → ℤ
  water : ℤ → ℤ

/-- The freshly reset caches (`fill(-1)` / `resetWorldCaches`). -/
def WorldCaches.reset : WorldCaches := ⟨fun _ => -1, fun _ => -1⟩

/-- Stateful `getTerrainHeightCached`: returns the height and the updated
caches. -/
def getTerrainHeightCached (jsSin : ℚ → ℚ) (seed : ℤ) (s : WorldCaches) (x z : ℤ) :
    ℤ × WorldCaches :=
  let clampedX := jsClamp x 0 (WORLD_SIZE - 1)
  let clampedZ := jsClamp z 0 (WORLD_SIZE - 1)
  let cacheIndex := worldColumnIndex clampedX clampedZ
  let cached := s.terrain cacheIndex
  if 0 ≤ cached then (cached, s)
  else
    let height := terrainHeightPure jsSin seed clampedX clampedZ
    (height, ⟨fun i => if i = cacheIndex then height else s.terrain i, s.water⟩)

/-- The miss-branch computation of `getWaterHeightCached` as a pure function
(terrain lookups replaced by the pure height, which the cache lemmas prove is
exactly what the cached lookups return). Yields `-1` for "no water". -/
def waterHeightPure (jsSin : ℚ → ℚ) (seed : ℤ) (x z : ℤ) : ℤ :=
  let clampedX := jsClamp x 0 (WORLD_SIZE - 1)
  let clampedZ := jsClamp z 0 (WORLD_SIZE - 1)
  let h := terrainHeightPure jsSin seed clampedX clampedZ
  let continental := smoothNoise jsSin seed ((clampedX : ℚ) * 0.016 + 80) ((clampedZ : ℚ) * 0.016 + 11)
  let deepOceanSignal := smoothNoise jsSin seed ((clampedX : ℚ) * 0.01 + 25) ((clampedZ : ℚ) * 0.01 + 91)
  let craterSignal := smoothNoise jsSin seed ((clampedX : ℚ) * 0.07 + 44) ((clampedZ : ℚ) * 0.07 + 59)
  let n1 := terrainHeightPure jsSin seed (max 0 (clampedX - 1)) clampedZ
  let n2 := terrainHeightPure jsSin seed (min (WORLD_SIZE - 1) (clampedX + 1)) clampedZ
  let n3 := terrainHeightPure jsSin seed clampedX (max 0 (clampedZ - 1))
  let n4 := terrainHeightPure jsSin seed clampedX (min (WORLD_SIZE - 1) (clampedZ + 1))
  let avgNeighborHeight : ℚ := ((n1 + n2 + n3 + n4 : ℤ) : ℚ) / 4
  let basinDepth : ℚ := avgNeighborHeight - (h : ℚ)
  let oceanBlend := deepOceanSignal * 0.65 + continental * 0.35
  let w1 : ℤ :=
    if oceanBlend < 0.44 ∧ h ≤ OCEAN_LEVEL + 3 then
      max h (OCEAN_LEVEL + jsRound ((0.44 - oceanBlend) * 4))
    else -1
  let maxCraterWaterHeight := OCEAN_LEVEL + 4
  if h ≤ maxCraterWaterHeight ∧ 0.9 < basinDepth ∧ craterSignal < 0.3 then
    let craterDepth := jsRound ((0.3 - craterSignal) * 8)
    max w1 (max h (min maxCraterWaterHeight (h + min 3 (max 1 craterDepth))))
  else w1

/-- Encoding used by the water cache: `0` for "no water", otherwise the
water height plus one. -/
def encodeWater (w : ℤ) : ℤ := if w < 0 then 0 else w + 1

/-- Stateful `getWaterHeightCached`: threads the terrain cache through the
five terrain lookups of the miss branch and writes the encoded result into
the water cache. -/
def getWaterHeightCached (jsSin : ℚ → ℚ) (seed : ℤ) (s : WorldCaches) (x z : ℤ) :
    ℤ × WorldCaches :=
  let clampedX := jsClamp x 0 (WORLD_SIZE - 1)
  let clampedZ := jsClamp z 0 (WORLD_SIZE - 1)
  let cacheIndex := worldColumnIndex clampedX clampedZ
  let cached := s.water cacheIndex
  if 0 ≤ cached then (cached - 1, s)
  else
    let r1 := getTerrainHeightCached jsSin seed s clampedX clampedZ
    let h := r1.1
    let continental := smoothNoise jsSin seed ((clampedX : ℚ) * 0.016 + 80) ((clampedZ : ℚ) * 0.016 + 11)
    let deepOceanSignal := smoothNoise jsSin seed ((clampedX : ℚ) * 0.01 + 25) ((clampedZ : ℚ) * 0.01 + 91)
    let craterSignal := smoothNoise jsSin seed ((clampedX : ℚ) * 0.07 + 44) ((clampedZ : ℚ) * 0.07 + 59)
    let r2 := getTerrainHeightCached jsSin seed r1.2 (max 0 (clampedX - 1)) clampedZ
    let r3 := getTerrainHeightCached jsSin seed r2.2 (min (WORLD_SIZE - 1) (clampedX + 1)) clampedZ
    let r4 := getTerrainHeightCached jsSin seed r3.2 clampedX (max 0 (clampedZ - 1))
    let r5 := getTerrainHeightCached jsSin seed r4.2 clampedX (min (WORLD_SIZE - 1) (clampedZ + 1))
    let avgNeighborHeight : ℚ := ((r2.1 + r3.1 + r4.1 + r5.1 : ℤ) : ℚ) / 4
    let basinDepth : ℚ := avgNeighborHeight - (h : ℚ)
    let oceanBlend := deepOceanSignal * 0.65 + continental * 0.35
    let w1 : ℤ :=
      if oceanBlend < 0.44 ∧ h ≤ OCEAN_LEVEL + 3 then
        max h (OCEAN_LEVEL + jsRound ((0.44 - oceanBlend) * 4))
      else -1
    let maxCraterWaterHeight := OCEAN_LEVEL + 4
    let computedWaterHeight : ℤ :=
      if h ≤ maxCraterWaterHeight ∧ 0.9 < basinDepth ∧ craterSignal < 0.3 then
        let craterDepth := jsRound ((0.3 - craterSignal) * 8)
        max w1 (max h (min maxCraterWaterHeight (h + min 3 (max 1 craterDepth))))
      else w1
    let encodedHeight := encodeWater computedWaterHeight
    (computedWaterHeight,
      ⟨r5.2.terrain, fun i => if i = cacheIndex then encodedHeight else r5.2.water i⟩)

/-- Pure `hasWaterAt`: water height at or above terrain height. -/
def hasWaterAt (jsSin : ℚ → ℚ) (seed : ℤ) (x z : ℤ) : Bool :=
  terrainHeightPure jsSin seed x z ≤ waterHeightPure jsSin seed x z

/-- Integer range `[a, b]` as a list (empty when `b < a`). -/
def intRange (a b : ℤ) : List ℤ :=
  (List.range (b - a + 1).toNat).map (fun n : ℕ => a + (n : ℤ))

/-- Pure model of `hasWaterInRadiusCached`'s scan: some column within
Manhattan distance `radius` (and inside the world) has water at or above its
terrain height. -/
def hasWaterInRadius (jsSin : ℚ → ℚ) (seed : ℤ) (x z radius : ℤ) : Bool :=
  let clampedX := jsClamp x 0 (WORLD_SIZE - 1)
  let clampedZ := jsClamp z 0 (WORLD_SIZE - 1)
  (intRange (-radius) radius).any fun dz =>
    let nz := clampedZ + dz
    if nz < 0 ∨ WORLD_SIZE ≤ nz then false
    else (intRange (-radius) radius).any fun dx =>
      let nx := clampedX + dx
      if nx < 0 ∨ WORLD_SIZE ≤ nx then false
      else if radius < |dx| + |dz| then false
      else hasWaterAt jsSin seed nx nz

/-- Pure model of `getBiomeCached`'s miss branch. -/
def biomeAt (jsSin : ℚ → ℚ) (seed : ℤ) (x z : ℤ) : ℤ :=
  let clampedX := jsClamp x 0 (WORLD_SIZE - 1)
  let clampedZ := jsClamp z 0 (WORLD_SIZE - 1)
  let temperature := smoothNoise jsSin seed ((clampedX : ℚ) * 0.013 + 123) ((clampedZ : ℚ) * 0.013 + 48)
  let humidity := smoothNoise jsSin seed ((clampedX : ℚ) * 0.017 + 11) ((clampedZ : ℚ) * 0.017 + 189)
  if temperature < 0.3 then BIOME_SNOW
  else if 0.64 < temperature ∧ humidity < 0.42 then BIOME_DESERT
  else BIOME_PLAINS

/-- Pure model of `isTreeCenter` (memoisation dropped: the memoised value is
this pure function of the coordinates). -/
def isTreeCenter (jsSin : ℚ → ℚ) (seed : ℤ) (wx wz : ℤ) : Bool :=
  if wx ≤ 2 ∨ wz ≤ 2 ∨ WORLD_SIZE - 3 ≤ wx ∨ WORLD_SIZE - 3 ≤ wz then false
  else if wx % TREE_SPACING ≠ 0 ∨ wz % TREE_SPACING ≠ 0 then false
  else
    let centerHeight := terrainHeightPure jsSin seed wx wz
    let biome := biomeAt jsSin seed wx wz
    if centerHeight ≤ OCEAN_LEVEL + 1 ∨ hasWaterAt jsSin seed wx wz then false
    else if biome = BIOME_DESERT then false
    else
      let north := terrainHeightPure jsSin seed wx (wz - 1)
      let south := terrainHeightPure jsSin seed wx (wz + 1)
      let east := terrainHeightPure jsSin seed (wx + 1) wz
      let west := terrainHeightPure jsSin seed (wx - 1) wz
      let isSteep :=
        2 < max (max |centerHeight - north| |centerHeight - south|)
          (max |centerHeight - east| |centerHeight - west|)
      if isSteep then false
      else
        let treeDensityThreshold := if biome = BIOME_SNOW then (0.9 : ℚ) else TREE_DENSITY_THRESHOLD
        treeDensityThreshold < hash2 jsSin seed ((wx : ℚ) * 0.73 + 5.7) ((wz : ℚ) * 0.73 + 17.1)

/-- Multiples of `TREE_SPACING` from `lo` to `hi` inclusive (the
`for (t = lo; t <= hi; t += TREE_SPACING)` iteration values). -/
def treeSteps (lo hi : ℤ) : List ℤ :=
  (List.range (((hi - lo) / TREE_SPACING + 1).toNat)).map
    (fun n : ℕ => lo + TREE_SPACING * (n : ℤ))

/-- The per-center body of `treeBlockAt` (everything after the
`isTreeCenter` test); `none` means the center does not claim the voxel and
the scan continues. -/
def treeBlockAtCenter (jsSin : ℚ → ℚ) (seed : ℤ) (wx y wz tx tz : ℤ) : Option ℤ :=
  let trunkBaseY := terrainHeightPure jsSin seed tx tz + 1
  let trunkHeight := 4 + ⌊hash2 jsSin seed ((tx : ℚ) + 91.7) ((tz : ℚ) + 17.3) * 2⌋
  let trunkTopY := trunkBaseY + trunkHeight - 1
  if wx = tx ∧ wz = tz ∧ trunkBaseY ≤ y ∧ y ≤ trunkTopY then some BLOCK_WOOD
  else if wx = tx ∧ wz = tz ∧ y = trunkTopY + 1 then some BLOCK_LEAF
  else
    let dx := |wx - tx|
    let dz := |wz - tz|
    let leafBottom := trunkTopY - 1
    let leafTop := trunkTopY
    let isInLeafLayer := leafBottom ≤ y ∧ y ≤ leafTop
    let isInCanopy := dx ≤ TREE_CANOPY_RADIUS ∧ dz ≤ TREE_CANOPY_RADIUS ∧
      dx + dz ≤ TREE_CANOPY_RADIUS + 1
    let isTrunkCore := dx = 0 ∧ dz = 0 ∧ y ≤ trunkTopY
    let isApplePoint := y = leafBottom ∧
      (dx + dz = TREE_CANOPY_RADIUS + 1 ∨ (dx = TREE_CANOPY_RADIUS ∧ dz = TREE_CANOPY_RADIUS))
    let hasApple := hash2 jsSin seed ((wx : ℚ) * 0.69 + (y : ℚ) * 0.21 + 13.5)
      ((wz : ℚ) * 0.94 + (y : ℚ) * 0.53 + 44.1) < TREE_APPLE_CHANCE
    if isApplePoint ∧ hasApple then some BLOCK_APPLE
    else
      let hasLeaf := hash2 jsSin seed ((wx : ℚ) * 1.91 + (y : ℚ) * 0.47 + 31.7)
        ((wz : ℚ) * 1.37 + (y : ℚ) * 0.73 + 19.3) < TREE_LEAF_CHANCE
      if isInLeafLayer ∧ isInCanopy ∧ ¬isTrunkCore ∧ hasLeaf then some BLOCK_LEAF
      else none

/-- Pure model of `treeBlockAt`: scan the candidate tree centers whose
canopy can reach the voxel (outer loop over tx, inner over tz), skip
non-centers, and return the first center's claimed block, else air. -/
def treeBlockAt (jsSin : ℚ → ℚ) (seed : ℤ) (wx y wz : ℤ) : ℤ :=
  let minTreeX := ⌊((wx : ℚ) - (TREE_CANOPY_RADIUS : ℚ)) / (TREE_SPACING : ℚ)⌋ * TREE_SPACING
  let maxTreeX := ⌈((wx : ℚ) + (TREE_CANOPY_RADIUS : ℚ)) / (TREE_SPACING : ℚ)⌉ * TREE_SPACING
  let minTreeZ := ⌊((wz : ℚ) - (TREE_CANOPY_RADIUS : ℚ)) / (TREE_SPACING : ℚ)⌋ * TREE_SPACING
  let maxTreeZ := ⌈((wz : ℚ) + (TREE_CANOPY_RADIUS : ℚ)) / (TREE_SPACING : ℚ)⌉ * TREE_SPACING
  let candidates := (treeSteps minTreeX maxTreeX).flatMap fun tx =>
    (treeSteps minTreeZ maxTreeZ).map fun tz => (tx, tz)
  let hit := candidates.findSome? fun p =>
    if isTreeCenter jsSin seed p.1 p.2 then treeBlockAtCenter jsSin seed wx y wz p.1 p.2
    else none
  hit.getD BLOCK_AIR

/-- The cave-carving test of `getVoxelTypeAt` (vertical band gate plus the
two-octave density threshold), as a Boolean. -/
def caveCarved (jsSin : ℚ → ℚ) (seed : ℤ) (wx y wz h : ℤ) : Bool :=
  if CAVE_MIN_Y < y ∧ y < h - 1 then
    let caveNoiseA := smoothNoise jsSin seed ((wx : ℚ) * CAVE_SCALE + (y : ℚ) * 0.12 + 300)
      ((wz : ℚ) * CAVE_SCALE + (y : ℚ) * 0.09 + 500)
    let caveNoiseB := smoothNoise jsSin seed ((wx : ℚ) * (CAVE_SCALE * 1.8) + (y : ℚ) * 0.2 + 30)
      ((wz : ℚ) * (CAVE_SCALE * 1.8) + (y : ℚ) * 0.16 + 90)
    let caveDensity := caveNoiseA * 0.7 + caveNoiseB * 0.3
    CAVE_THRESHOLD < caveDensity
  else false

/-- The Voxel Resolver `getVoxelTypeAt`, with the cached column queries
replaced by their pure values (justified by the cache-correctness
theorems). -/
def getVoxelTypeAt (jsSin : ℚ → ℚ) (seed : ℤ) (wx y wz : ℤ) : ℤ :=
  if wx < 0 ∨ wz < 0 ∨ WORLD_SIZE ≤ wx ∨ WORLD_SIZE ≤ wz ∨ y < 0 ∨ MAX_HEIGHT < y then BLOCK_AIR
  else
    let h := terrainHeightPure jsSin seed wx wz
    let waterSurface := waterHeightPure jsSin seed wx wz
    if h < y ∧ y ≤ waterSurface then BLOCK_WATER
    else
      let treeBlock := treeBlockAt jsSin seed wx y wz
      if treeBlock ≠ BLOCK_AIR ∧ h < y then treeBlock
      else if h < y then BLOCK_AIR
      else if caveCarved jsSin seed wx y wz h then BLOCK_AIR
      else if y ≤ 1 then BLOCK_STONE
      else if y = h then
        let biome := biomeAt jsSin seed wx wz
        if biome = BIOME_SNOW ∨ MOUNTAIN_HEIGHT_THRESHOLD ≤ h then BLOCK_SNOW
        else if biome = BIOME_DESERT ∨ hasWaterInRadius jsSin seed wx wz SAND_WATER_RADIUS then
          BLOCK_SAND
        else BLOCK_GRASS
      else if h - 2 ≤ y then BLOCK_DIRT
      else BLOCK_STONE

/-- An integer 3-vector (voxel position, corner, or normal). -/
structure V3 where
  x : ℤ
  y : ℤ
  z : ℤ
deriving DecidableEq, Repr

/-- One of the six face descriptors of `buildMaterialGreedyGeometry`. -/
structure Face where
  normal : V3
  corners : List V3
  neighbor : V3
deriving DecidableEq, Repr

/-- A quad as handed to `pushQuad`: its four world-space corners (in push
order) and its normal. -/
structure Quad where
  corners : List V3
  normal : V3
deriving DecidableEq, Repr

/-- The `faces` table of `buildMaterialGreedyGeometry`, in source order. -/
def faces : List Face :=
  [⟨⟨1, 0, 0⟩, [⟨1, 0, 0⟩, ⟨1, 0, 1⟩, ⟨1, 1, 1⟩, ⟨1, 1, 0⟩], ⟨1, 0, 0⟩⟩,
   ⟨⟨-1, 0, 0⟩, [⟨0, 0, 0⟩, ⟨0, 1, 0⟩, ⟨0, 1, 1⟩, ⟨0, 0, 1⟩], ⟨-1, 0, 0⟩⟩,
   ⟨⟨0, 1, 0⟩, [⟨0, 1, 0⟩, ⟨1, 1, 0⟩, ⟨1, 1, 1⟩, ⟨0, 1, 1⟩], ⟨0, 1, 0⟩⟩,
   ⟨⟨0, -1, 0⟩, [⟨0, 0, 0⟩, ⟨0, 0, 1⟩, ⟨1, 0, 1⟩, ⟨1, 0, 0⟩], ⟨0, -1, 0⟩⟩,
   ⟨⟨0, 0, 1⟩, [⟨0, 0, 1⟩, ⟨0, 1, 1⟩, ⟨1, 1, 1⟩, ⟨1, 0, 1⟩], ⟨0, 0, 1⟩⟩,
   ⟨⟨0, 0, -1⟩, [⟨0, 0, 0⟩, ⟨1, 0, 0⟩, ⟨1, 1, 0⟩, ⟨0, 1, 0⟩], ⟨0, 0, -1⟩⟩]

/-- The local `index` helper of the chunk buffer: `x + z * CHUNK_SIZE +
y * CHUNK_SIZE * CHUNK_SIZE`. -/
def chunkIndex (x y z : ℤ) : ℤ := x + z * CHUNK_SIZE + y * CHUNK_SIZE * CHUNK_SIZE

/-- The `voxelAt` closure of `buildMaterialGreedyGeometry`: out-of-height is
air; out-of-chunk in x or z resolves through the Voxel Resolver at the
world coordinate; otherwise the local chunk buffer (modelled as a map from
the flattened chunk index). -/
def voxelAt (jsSin : ℚ → ℚ) (seed : ℤ) (voxels : ℤ → ℤ)
    (chunkOriginX chunkOriginZ : ℤ) (x y z : ℤ) : ℤ :=
  if y < 0 ∨ MAX_HEIGHT < y then BLOCK_AIR
  else if x < 0 ∨ z < 0 ∨ CHUNK_SIZE ≤ x ∨ CHUNK_SIZE ≤ z then
    getVoxelTypeAt jsSin seed (chunkOriginX + x) y (chunkOriginZ + z)
  else voxels (chunkIndex x y z)

/-- The `isWaterAdjacent` closure: some of the six axis-aligned neighbors is
water. -/
def isWaterAdjacent (jsSin : ℚ → ℚ) (seed : ℤ) (voxels : ℤ → ℤ)
    (chunkOriginX chunkOriginZ : ℤ) (x y z : ℤ) : Bool :=
  [((1 : ℤ), (0 : ℤ), (0 : ℤ)), (-1, 0, 0), (0, 1, 0), (0, -1, 0), (0, 0, 1), (0, 0, -1)].any
    fun d => voxelAt jsSin seed voxels chunkOriginX chunkOriginZ
      (x + d.1) (y + d.2.1) (z + d.2.2) = BLOCK_WATER

/-- The quad pushed for face `f` of the voxel at local position `(x,y,z)`. -/
def quadFor (f : Face) (x y z : ℤ) : Quad :=
  ⟨f.corners.map (fun c => ⟨x + c.x, y + c.y, z + c.z⟩), f.normal⟩

/-- The face-culling mesh builder `buildMaterialGreedyGeometry`, modelled as
the ordered list of quads handed to `pushQuad` (the geometry arrays are the
flattening of this list). -/
def buildMaterialGreedyGeometry (jsSin : ℚ → ℚ) (seed : ℤ) (voxels : ℤ → ℤ)
    (materialType chunkOriginX chunkOriginZ : ℤ) : List Quad :=
  (intRange 0 MAX_HEIGHT).flatMap fun y =>
    (intRange 0 (CHUNK_SIZE - 1)).flatMap fun z =>
      (intRange 0 (CHUNK_SIZE - 1)).flatMap fun x =>
        if voxelAt jsSin seed voxels chunkOriginX chunkOriginZ x y z ≠ materialType then []
        else
          let shouldForceAllFaces := materialType ≠ BLOCK_WATER ∧
            isWaterAdjacent jsSin seed voxels chunkOriginX chunkOriginZ x y z
          faces.filterMap fun face =>
            let nx := x + face.neighbor.x
            let ny := y + face.neighbor.y
            let nz := z + face.neighbor.z
            if ¬shouldForceAllFaces ∧
                voxelAt jsSin seed voxels chunkOriginX chunkOriginZ nx ny nz ≠ BLOCK_AIR then
              none
            else some (quadFor face x y z)

/-- An entry of the pending chunk build queue: coordinates, key, and the
Chebyshev distance to the camera chunk recorded at enqueue time. -/
structure BuildEntry where
  cx : ℤ
  cz : ℤ
  key : ℤ × ℤ
  distance : ℤ
deriving DecidableEq, Repr

/-- The ChunkManager state relevant to streaming: built chunk keys, the
pending build queue, and the pending-dedup set (the map values and scene
objects carry no streaming logic and are elided). The string key "cx,cz" is
modelled by the pair itself. -/
structure CMState where
  chunks : List (ℤ × ℤ)
  pendingBuildQueue : List BuildEntry
  pendingBuildSet : List (ℤ × ℤ)
deriving Repr

/-- A freshly constructed ChunkManager. -/
def CMState.init : CMState := ⟨[], [], []⟩

/-- The `inWorld` bounds check of the ChunkManager. -/
def inWorld (cx cz : ℤ) : Bool := 0 ≤ cx ∧ 0 ≤ cz ∧ cx < WORLD_CHUNKS ∧ cz < WORLD_CHUNKS

/-- `enqueueChunkBuild`: skip if built, already pending, or out of world;
otherwise push an entry carrying the Chebyshev distance to the camera chunk
at enqueue time. -/
def enqueueChunkBuild (s : CMState) (cx cz camChunkX camChunkZ : ℤ) : CMState :=
  let key := (cx, cz)
  if key ∈ s.chunks ∨ key ∈ s.pendingBuildSet ∨ ¬inWorld cx cz then s
  else
    let distance := max |cx - camChunkX| |cz - camChunkZ|
    { s with pendingBuildQueue := s.pendingBuildQueue ++ [⟨cx, cz, key, distance⟩],
             pendingBuildSet := s.pendingBuildSet ++ [key] }

/-- Comparator of the queue sort: `(a, b) => a.distance - b.distance`, i.e.
sort nondecreasing by recorded distance. -/
def distLE (a b : BuildEntry) : Prop := a.distance ≤ b.distance

instance : DecidableRel distLE := fun a b => inferInstanceAs (Decidable (a.distance ≤ b.distance))

instance : IsTotal BuildEntry distLE := ⟨fun a b => le_total a.distance b.distance⟩

instance : IsTrans BuildEntry distLE := ⟨fun _ _ _ h h' => le_trans h h'⟩

/-- The dequeue loop of `processChunkBuildQueue` with its build budget of
one: shift entries (deleting their key from the dedup set), skip entries
whose key is already built, and on the first unbuilt entry run `buildChunk`
(with its own has/inWorld guard) and stop. Returns the new built-key list,
the new dedup set, the remaining queue, and (as an observation used by the
theorems) the entries for which `buildChunk` ran. -/
def drainQueue (chunks : List (ℤ × ℤ)) (pset : List (ℤ × ℤ)) :
    List BuildEntry → List (ℤ × ℤ) × List (ℤ × ℤ) × List BuildEntry × List BuildEntry
  | [] => (chunks, pset, [], [])
  | e :: rest =>
    let pset' := pset.erase e.key
    if e.key ∈ chunks then drainQueue chunks pset' rest
    else
      let chunks' := if inWorld e.cx e.cz ∧ e.key ∉ chunks then chunks ++ [e.key] else chunks
      (chunks', pset', rest, [e])

/-- `processChunkBuildQueue`: no-op on an empty queue, else stable-sort the
pending queue by recorded distance and run the budgeted dequeue loop. -/
def processChunkBuildQueue (s : CMState) : CMState :=
  if s.pendingBuildQueue.isEmpty then s
  else
    let sorted := List.insertionSort distLE s.pendingBuildQueue
    let r := drainQueue s.chunks s.pendingBuildSet sorted
    ⟨r.1, r.2.2.1, r.2.1⟩

/-- The entries built by one `processChunkBuildQueue` step (ghost
observation of the same loop). -/
def processBuilt (s : CMState) : List BuildEntry :=
  if s.pendingBuildQueue.isEmpty then []
  else (drainQueue s.chunks s.pendingBuildSet (List.insertionSort distLE s.pendingBuildQueue)).2.2.2

/-- `ChunkManager.clear`: all built chunks unloaded, queue emptied, dedup
set cleared. -/
def CMState.clear (_ : CMState) : CMState := ⟨[], [], []⟩

/-- Real-valued model of the seeded noise primitive `hash2` (with
`setWorldSeed`'s offsets inlined), using the mathematical sine for the
float `Math.sin`. -/
noncomputable def hash2R (seed : ℤ) (x z : ℝ) : ℝ :=
  Int.fract (Real.sin ((x + ((seed % 997 : ℤ) : ℝ) * 0.1337) * 127.1 +
    (z + ((seed % 577 : ℤ) : ℝ) * 0.2811) * 311.7 + (seed : ℝ) * 0.013) * 43758.5453123)

/-! ### Cache correctness for the per-column height and water queries -/

theorem WORLD_SIZE_eq : WORLD_SIZE = 756 := by decide

theorem MAX_HEIGHT_eq : MAX_HEIGHT = 21 := by with_unfolding_all decide

theorem jsClamp_idem (v lo hi : ℤ) (h : lo ≤ hi) :
    jsClamp (jsClamp v lo hi) lo hi = jsClamp v lo hi := by
  simp only [jsClamp]
  omega

theorem jsClamp_mem (v : ℤ) :
    0 ≤ jsClamp v 0 (WORLD_SIZE - 1) ∧ jsClamp v 0 (WORLD_SIZE - 1) < WORLD_SIZE := by
  simp only [jsClamp, WORLD_SIZE_eq]
  omega

theorem jsClamp_eq_self (v lo hi : ℤ) (h1 : lo ≤ v) (h2 : v ≤ hi) :
    jsClamp v lo hi = v := by
  simp only [jsClamp]
  omega

theorem terrainHeightPure_clamp (jsSin : ℚ → ℚ) (seed : ℤ) (x z : ℤ) :
    terrainHeightPure jsSin seed (jsClamp x 0 (WORLD_SIZE - 1)) (jsClamp z 0 (WORLD_SIZE - 1)) =
      terrainHeightPure jsSin seed x z := by
  simp only [terrainHeightPure, jsClamp_idem x 0 (WORLD_SIZE - 1) (by decide),
    jsClamp_idem z 0 (WORLD_SIZE - 1) (by decide)]

theorem terrainHeightPure_range (jsSin : ℚ → ℚ) (seed : ℤ) (x z : ℤ) :
    2 ≤ terrainHeightPure jsSin seed x z ∧ terrainHeightPure jsSin seed x z ≤ MAX_HEIGHT := by
  simp only [terrainHeightPure, MAX_HEIGHT_eq]
  omega

theorem worldColumnIndex_inj {x z x' z' : ℤ} (hx : 0 ≤ x) (hx2 : x < WORLD_SIZE)
    (hx' : 0 ≤ x') (hx2' : x' < WORLD_SIZE)
    (h : worldColumnIndex x z = worldColumnIndex x' z') : x = x' ∧ z = z' := by
  simp only [worldColumnIndex, WORLD_SIZE_eq] at *
  omega

/-- Invariant of the two column caches: an entry for an in-world column is
either the `-1` sentinel or exactly the value the miss branch computes for
that column (water entries store that value through `encodeWater`). -/
def CacheInv (jsSin : ℚ → ℚ) (seed : ℤ) (s : WorldCaches) : Prop :=
  (∀ x z : ℤ, 0 ≤ x → x < WORLD_SIZE → 0 ≤ z → z < WORLD_SIZE →
    s.terrain (worldColumnIndex x z) = -1 ∨
      s.terrain (worldColumnIndex x z) = terrainHeightPure jsSin seed x z) ∧
  (∀ x z : ℤ, 0 ≤ x → x < WORLD_SIZE → 0 ≤ z → z < WORLD_SIZE →
    s.water (worldColumnIndex x z) = -1 ∨
      s.water (worldColumnIndex x z) = encodeWater (waterHeightPure jsSin seed x z))

theorem CacheInv_reset (jsSin : ℚ → ℚ) (seed : ℤ) : CacheInv jsSin seed WorldCaches.reset :=
  ⟨fun _ _ _ _ _ _ => Or.inl rfl, fun _ _ _ _ _ _ => Or.inl rfl⟩

theorem getTerrainHeightCached_spec (jsSin : ℚ → ℚ) (seed : ℤ) (s : WorldCaches) (x z : ℤ)
    (hinv : CacheInv jsSin seed s) :
    (getTerrainHeightCached jsSin seed s x z).1 = terrainHeightPure jsSin seed x z ∧
      CacheInv jsSin seed (getTerrainHeightCached jsSin seed s x z).2 := by
  have hx := jsClamp_mem x
  have hz := jsClamp_mem z
  have hmem := hinv.1 (jsClamp x 0 (WORLD_SIZE - 1)) (jsClamp z 0 (WORLD_SIZE - 1))
    hx.1 hx.2 hz.1 hz.2
  simp only [getTerrainHeightCached]
  by_cases hc : 0 ≤ s.terrain (worldColumnIndex (jsClamp x 0 (WORLD_SIZE - 1))
      (jsClamp z 0 (WORLD_SIZE - 1)))
  · rw [if_pos hc]
    refine ⟨?_, hinv⟩
    rcases hmem with h | h
    · omega
    · rw [h, terrainHeightPure_clamp]
  · rw [if_neg hc]
    refine ⟨terrainHeightPure_clamp jsSin seed x z, ?_, hinv.2⟩
    intro x' z' hx' hx2' hz' hz2'
    by_cases he : worldColumnIndex x' z' =
        worldColumnIndex (jsClamp x 0 (WORLD_SIZE - 1)) (jsClamp z 0 (WORLD_SIZE - 1))
    · right
      obtain ⟨hex, hez⟩ := worldColumnIndex_inj hx' hx2' hx.1 hx.2 he
      rw [he]
      dsimp only
      rw [if_pos rfl, hex, hez]
    · simp only [if_neg he]
      exact hinv.1 x' z' hx' hx2' hz' hz2'

theorem waterHeightPure_clamp (jsSin : ℚ → ℚ) (seed : ℤ) (x z : ℤ) :
    waterHeightPure jsSin seed (jsClamp x 0 (WORLD_SIZE - 1)) (jsClamp z 0 (WORLD_SIZE - 1)) =
      waterHeightPure jsSin seed x z := by
  simp only [waterHeightPure, jsClamp_idem x 0 (WORLD_SIZE - 1) (by decide),
    jsClamp_idem z 0 (WORLD_SIZE - 1) (by decide)]

theorem waterHeightPure_lb (jsSin : ℚ → ℚ) (seed : ℤ) (x z : ℤ) :
    waterHeightPure jsSin seed x z = -1 ∨
      terrainHeightPure jsSin seed (jsClamp x 0 (WORLD_SIZE - 1)) (jsClamp z 0 (WORLD_SIZE - 1)) ≤
        waterHeightPure jsSin seed x z := by
  simp only [waterHeightPure]
  split_ifs <;> first | (left; rfl) | (right; omega)

theorem getWaterHeightCached_spec (jsSin : ℚ → ℚ) (seed : ℤ) (s : WorldCaches) (x z : ℤ)
    (hinv : CacheInv jsSin seed s) :
    (getWaterHeightCached jsSin seed s x z).1 = waterHeightPure jsSin seed x z ∧
      CacheInv jsSin seed (getWaterHeightCached jsSin seed s x z).2 := by
  have hx := jsClamp_mem x
  have hz := jsClamp_mem z
  have hterr := terrainHeightPure_range jsSin seed (jsClamp x 0 (WORLD_SIZE - 1))
    (jsClamp z 0 (WORLD_SIZE - 1))
  have hmem := hinv.2 (jsClamp x 0 (WORLD_SIZE - 1)) (jsClamp z 0 (WORLD_SIZE - 1))
    hx.1 hx.2 hz.1 hz.2
  have h1 := getTerrainHeightCached_spec jsSin seed s (jsClamp x 0 (WORLD_SIZE - 1))
    (jsClamp z 0 (WORLD_SIZE - 1)) hinv
  have h2 := getTerrainHeightCached_spec jsSin seed
    (getTerrainHeightCached jsSin seed s (jsClamp x 0 (WORLD_SIZE - 1))
      (jsClamp z 0 (WORLD_SIZE - 1))).2
    (max 0 (jsClamp x 0 (WORLD_SIZE - 1) - 1)) (jsClamp z 0 (WORLD_SIZE - 1)) h1.2
  have h3 := getTerrainHeightCached_spec jsSin seed _
    (min (WORLD_SIZE - 1) (jsClamp x 0 (WORLD_SIZE - 1) + 1)) (jsClamp z 0 (WORLD_SIZE - 1)) h2.2
  have h4 := getTerrainHeightCached_spec jsSin seed _
    (jsClamp x 0 (WORLD_SIZE - 1)) (max 0 (jsClamp z 0 (WORLD_SIZE - 1) - 1)) h3.2
  have h5 := getTerrainHeightCached_spec jsSin seed _
    (jsClamp x 0 (WORLD_SIZE - 1)) (min (WORLD_SIZE - 1) (jsClamp z 0 (WORLD_SIZE - 1) + 1)) h4.2
  simp only [getWaterHeightCached]
  by_cases hc : 0 ≤ s.water (worldColumnIndex (jsClamp x 0 (WORLD_SIZE - 1))
      (jsClamp z 0 (WORLD_SIZE - 1)))
  · rw [if_pos hc]
    refine ⟨?_, hinv⟩
    rcases hmem with h | h
    · omega
    · rw [h, waterHeightPure_clamp]
      rcases waterHeightPure_lb jsSin seed x z with hw | hw <;>
        simp only [encodeWater] <;> split_ifs <;> omega
  · rw [if_neg hc]
    refine ⟨?_, ?_, ?_⟩
    · simp only [h1.1, h2.1, h3.1, h4.1, h5.1, waterHeightPure]
    · exact h5.2.1
    · intro x' z' hx' hx2' hz' hz2'
      dsimp only
      by_cases he : worldColumnIndex x' z' =
          worldColumnIndex (jsClamp x 0 (WORLD_SIZE - 1)) (jsClamp z 0 (WORLD_SIZE - 1))
      · right
        obtain ⟨hex, hez⟩ := worldColumnIndex_inj hx' hx2' hx.1 hx.2 he
        rw [he, if_pos rfl, hex, hez, waterHeightPure_clamp]
        simp only [h1.1, h2.1, h3.1, h4.1, h5.1, waterHeightPure]
      · rw [if_neg he]
        exact h5.2.2 x' z' hx' hx2' hz' hz2'

/-- C1: whenever `waterHeight(x,z)` is present (not the `-1` sentinel), it
is at least `terrainHeight(x,z)`, for any cache state satisfying the cache
invariant — this covers both the freshly computed value and a value served
from the water-height cache; the invariant itself is preserved, and the
returned value is exactly the pure per-column water height. -/
theorem waterHeight_ge_terrainHeight (jsSin : ℚ → ℚ) (seed : ℤ) (s : WorldCaches) (x z : ℤ)
    (hinv : CacheInv jsSin seed s) (hx : 0 ≤ x) (hx2 : x < WORLD_SIZE)
    (hz : 0 ≤ z) (hz2 : z < WORLD_SIZE) :
    ((getWaterHeightCached jsSin seed s x z).1 ≠ -1 →
      terrainHeightPure jsSin seed x z ≤ (getWaterHeightCached jsSin seed s x z).1) ∧
    (getWaterHeightCached jsSin seed s x z).1 = waterHeightPure jsSin seed x z ∧
    CacheInv jsSin seed (getWaterHeightCached jsSin seed s x z).2 := by
  obtain ⟨hval, hinv'⟩ := getWaterHeightCached_spec jsSin seed s x z hinv
  refine ⟨?_, hval, hinv'⟩
  intro hne
  rw [hval] at hne ⊢
  rcases waterHeightPure_lb jsSin seed x z with h | h
  · exact absurd h hne
  · rwa [jsClamp_eq_self x 0 (WORLD_SIZE - 1) hx (by omega),
      jsClamp_eq_self z 0 (WORLD_SIZE - 1) hz (by omega)] at h

/-- C3: for every seed and in-bounds column, the cached terrain height query
is deterministic and idempotent — it returns the pure height of the column
in every invariant-satisfying cache state (hence the same integer on every
repeated call, first computing and later cache-hitting), it preserves the
cache invariant, and the value lies in [2, MAX_HEIGHT]. -/
theorem terrainHeight_deterministic_bounded (jsSin : ℚ → ℚ) (seed : ℤ) (s : WorldCaches)
    (x z : ℤ) (hinv : CacheInv jsSin seed s) :
    (getTerrainHeightCached jsSin seed s x z).1 = terrainHeightPure jsSin seed x z ∧
    (getTerrainHeightCached jsSin seed (getTerrainHeightCached jsSin seed s x z).2 x z).1 =
      (getTerrainHeightCached jsSin seed s x z).1 ∧
    CacheInv jsSin seed (getTerrainHeightCached jsSin seed s x z).2 ∧
    2 ≤ (getTerrainHeightCached jsSin seed s x z).1 ∧
    (getTerrainHeightCached jsSin seed s x z).1 ≤ MAX_HEIGHT := by
  obtain ⟨hval, hinv'⟩ := getTerrainHeightCached_spec jsSin seed s x z hinv
  obtain ⟨hval', _⟩ := getTerrainHeightCached_spec jsSin seed _ x z hinv'
  have hr := terrainHeightPure_range jsSin seed x z
  exact ⟨hval, by rw [hval, hval'], hinv', by omega, by omega⟩

/-- Witness for C3 at the freshly reset caches, seed 1, column (0,0). -/
theorem terrainHeight_deterministic_bounded_witness :
    CacheInv (fun _ => 0) 1 WorldCaches.reset ∧
    ((getTerrainHeightCached (fun _ => 0) 1 WorldCaches.reset 0 0).1 =
        terrainHeightPure (fun _ => 0) 1 0 0 ∧
      (getTerrainHeightCached (fun _ => 0) 1
          (getTerrainHeightCached (fun _ => 0) 1 WorldCaches.reset 0 0).2 0 0).1 =
        (getTerrainHeightCached (fun _ => 0) 1 WorldCaches.reset 0 0).1 ∧
      CacheInv (fun _ => 0) 1 (getTerrainHeightCached (fun _ => 0) 1 WorldCaches.reset 0 0).2 ∧
      2 ≤ (getTerrainHeightCached (fun _ => 0) 1 WorldCaches.reset 0 0).1 ∧
      (getTerrainHeightCached (fun _ => 0) 1 WorldCaches.reset 0 0).1 ≤ MAX_HEIGHT) :=
  ⟨CacheInv_reset (fun _ => 0) 1,
    terrainHeight_deterministic_bounded (fun _ => 0) 1 WorldCaches.reset 0 0
      (CacheInv_reset (fun _ => 0) 1)⟩

/-- Witness for C1 at the freshly reset caches, seed 1, column (0,0). -/
theorem waterHeight_ge_terrainHeight_witness :
    (CacheInv (fun _ => 0) 1 WorldCaches.reset ∧ (0 : ℤ) ≤ 0 ∧ (0 : ℤ) < WORLD_SIZE) ∧
    (((getWaterHeightCached (fun _ => 0) 1 WorldCaches.reset 0 0).1 ≠ -1 →
        terrainHeightPure (fun _ => 0) 1 0 0 ≤
          (getWaterHeightCached (fun _ => 0) 1 WorldCaches.reset 0 0).1) ∧
      (getWaterHeightCached (fun _ => 0) 1 WorldCaches.reset 0 0).1 =
        waterHeightPure (fun _ => 0) 1 0 0 ∧
      CacheInv (fun _ => 0) 1 (getWaterHeightCached (fun _ => 0) 1 WorldCaches.reset 0 0).2) :=
  ⟨⟨CacheInv_reset (fun _ => 0) 1, le_refl 0, by decide⟩,
    waterHeight_ge_terrainHeight (fun _ => 0) 1 WorldCaches.reset 0 0
      (CacheInv_reset (fun _ => 0) 1) (le_refl 0) (by decide) (le_refl 0) (by decide)⟩

/-! ### Voxel Resolver claims -/

/-- C4: `getVoxelTypeAt` is total by construction (it is a Lean function on
all of ℤ³) and returns the air block for every out-of-bounds query: negative
y, y above MAX_HEIGHT (in particular y = MAX_HEIGHT + 1 and y = -1), and any
wx or wz outside [0, WORLD_SIZE). -/
theorem getVoxelTypeAt_air_out_of_bounds (jsSin : ℚ → ℚ) (seed : ℤ) (wx y wz : ℤ)
    (h : wx < 0 ∨ wz < 0 ∨ WORLD_SIZE ≤ wx ∨ WORLD_SIZE ≤ wz ∨ y < 0 ∨ MAX_HEIGHT < y) :
    getVoxelTypeAt jsSin seed wx y wz = BLOCK_AIR := by
  simp only [getVoxelTypeAt, if_pos h]

/-- Witness for C4 at wx = -1 (and, bundling the spec's boundary cases with
the same theorem's other instances, y = -1 and y = MAX_HEIGHT + 1). -/
theorem getVoxelTypeAt_air_out_of_bounds_witness :
    ((-1 : ℤ) < 0 ∨ (0 : ℤ) < 0 ∨ WORLD_SIZE ≤ -1 ∨ WORLD_SIZE ≤ 0 ∨ (5 : ℤ) < 0 ∨
        MAX_HEIGHT < 5) ∧
      getVoxelTypeAt (fun _ => 0) 1 (-1) 5 0 = BLOCK_AIR ∧
      getVoxelTypeAt (fun _ => 0) 1 3 (-1) 7 = BLOCK_AIR ∧
      getVoxelTypeAt (fun _ => 0) 1 3 (MAX_HEIGHT + 1) 7 = BLOCK_AIR :=
  ⟨Or.inl (by decide),
    getVoxelTypeAt_air_out_of_bounds (fun _ => 0) 1 (-1) 5 0 (Or.inl (by decide)),
    getVoxelTypeAt_air_out_of_bounds (fun _ => 0) 1 3 (-1) 7
      (Or.inr (Or.inr (Or.inr (Or.inr (Or.inl (by decide)))))),
    getVoxelTypeAt_air_out_of_bounds (fun _ => 0) 1 3 (MAX_HEIGHT + 1) 7
      (Or.inr (Or.inr (Or.inr (Or.inr (Or.inr (by omega))))))⟩

/-- C2: at the terrain surface (y equal to the column height, which is never
cave-carved and sits above the bedrock band y ≤ 1), the resolver returns
snow when the biome is Snow or the height reaches the mountain threshold,
else sand when the biome is Desert or water lies within the sand Manhattan
radius, else grass. -/
theorem getVoxelTypeAt_surface (jsSin : ℚ → ℚ) (seed : ℤ) (wx y wz : ℤ)
    (hx : 0 ≤ wx) (hx2 : wx < WORLD_SIZE) (hz : 0 ≤ wz) (hz2 : wz < WORLD_SIZE)
    (hy : y = terrainHeightPure jsSin seed wx wz)
    (hcave : caveCarved jsSin seed wx y wz (terrainHeightPure jsSin seed wx wz) = false)
    (hbed : 1 < y) :
    getVoxelTypeAt jsSin seed wx y wz =
      (if biomeAt jsSin seed wx wz = BIOME_SNOW ∨
          MOUNTAIN_HEIGHT_THRESHOLD ≤ terrainHeightPure jsSin seed wx wz then BLOCK_SNOW
       else if biomeAt jsSin seed wx wz = BIOME_DESERT ∨
          hasWaterInRadius jsSin seed wx wz SAND_WATER_RADIUS then BLOCK_SAND
       else BLOCK_GRASS) := by
  have hr := terrainHeightPure_range jsSin seed wx wz
  simp only [getVoxelTypeAt]
  rw [if_neg (by omega), if_neg (by omega), if_neg (by omega), if_neg (by omega),
    if_neg (by simp [hcave]), if_neg (by omega), if_pos hy]

/-- Witness for C2 at seed 1, column (0,0), surface height 2 (the constant
zero noise primitive gives a flat world of height 2). -/
theorem getVoxelTypeAt_surface_witness :
    ((2 : ℤ) = terrainHeightPure (fun _ => 0) 1 0 0 ∧
      caveCarved (fun _ => 0) 1 0 2 0 (terrainHeightPure (fun _ => 0) 1 0 0) = false ∧
      (1 : ℤ) < 2) ∧
    getVoxelTypeAt (fun _ => 0) 1 0 2 0 =
      (if biomeAt (fun _ => 0) 1 0 0 = BIOME_SNOW ∨
          MOUNTAIN_HEIGHT_THRESHOLD ≤ terrainHeightPure (fun _ => 0) 1 0 0 then BLOCK_SNOW
       else if biomeAt (fun _ => 0) 1 0 0 = BIOME_DESERT ∨
          hasWaterInRadius (fun _ => 0) 1 0 0 SAND_WATER_RADIUS then BLOCK_SAND
       else BLOCK_GRASS) :=
  ⟨⟨by with_unfolding_all decide, by with_unfolding_all decide, by decide⟩,
    getVoxelTypeAt_surface (fun _ => 0) 1 0 2 0 (by decide) (by decide) (by decide) (by decide)
      (by with_unfolding_all decide) (by with_unfolding_all decide) (by decide)⟩

/-- Helper for C9: a per-center tree classification is never the water
block. -/
theorem treeBlockAtCenter_ne_water (jsSin : ℚ → ℚ) (seed : ℤ) (wx y wz tx tz b : ℤ)
    (h : treeBlockAtCenter jsSin seed wx y wz tx tz = some b) : b ≠ BLOCK_WATER := by
  simp only [treeBlockAtCenter] at h
  split_ifs at h <;>
    simp only [Option.some.injEq, BLOCK_WOOD, BLOCK_LEAF, BLOCK_APPLE, BLOCK_WATER] at h ⊢ <;>
    omega

/-- Helper for C9: `treeBlockAt` never yields the water block. -/
theorem treeBlockAt_ne_water (jsSin : ℚ → ℚ) (seed : ℤ) (wx y wz : ℤ) :
    treeBlockAt jsSin seed wx y wz ≠ BLOCK_WATER := by
  simp only [treeBlockAt]
  cases hfs : List.findSome? (fun p =>
      if isTreeCenter jsSin seed p.1 p.2 then treeBlockAtCenter jsSin seed wx y wz p.1 p.2
      else none) ((treeSteps (⌊((wx : ℚ) - (TREE_CANOPY_RADIUS : ℚ)) / (TREE_SPACING : ℚ)⌋ *
        TREE_SPACING) (⌈((wx : ℚ) + (TREE_CANOPY_RADIUS : ℚ)) / (TREE_SPACING : ℚ)⌉ *
        TREE_SPACING)).flatMap fun tx =>
        (treeSteps (⌊((wz : ℚ) - (TREE_CANOPY_RADIUS : ℚ)) / (TREE_SPACING : ℚ)⌋ *
          TREE_SPACING) (⌈((wz : ℚ) + (TREE_CANOPY_RADIUS : ℚ)) / (TREE_SPACING : ℚ)⌉ *
          TREE_SPACING)).map fun tz => (tx, tz)) with
  | none =>
    simp only [Option.getD_none]
    decide
  | some b =>
    obtain ⟨p, _, hp⟩ := List.exists_of_findSome?_eq_some hfs
    simp only [Option.getD_some]
    by_cases hc : isTreeCenter jsSin seed p.1 p.2
    · rw [if_pos hc] at hp
      exact treeBlockAtCenter_ne_water jsSin seed wx y wz p.1 p.2 b hp
    · rw [if_neg hc] at hp
      cases hp

/-- C9: for every in-bounds voxel, a water result from the resolver implies
the voxel lies strictly above the terrain surface and at or below the water
surface — the solid column at and below the surface is never water. -/
theorem getVoxelTypeAt_water_above_terrain (jsSin : ℚ → ℚ) (seed : ℤ) (wx y wz : ℤ)
    (hx : 0 ≤ wx) (hx2 : wx < WORLD_SIZE) (hz : 0 ≤ wz) (hz2 : wz < WORLD_SIZE)
    (hw : getVoxelTypeAt jsSin seed wx y wz = BLOCK_WATER) :
    terrainHeightPure jsSin seed wx wz < y ∧ y ≤ waterHeightPure jsSin seed wx wz := by
  have htree := treeBlockAt_ne_water jsSin seed wx y wz
  simp only [getVoxelTypeAt] at hw
  split_ifs at hw <;>
    simp only [BLOCK_AIR, BLOCK_STONE, BLOCK_DIRT, BLOCK_GRASS, BLOCK_WOOD, BLOCK_LEAF,
      BLOCK_WATER, BLOCK_SAND, BLOCK_APPLE, BLOCK_SNOW] at * <;>
    omega

/-- Witness for C9 at seed 1, voxel (0,3,0): with the constant zero noise
primitive the resolver returns water there, strictly above terrain height 2
and at or below water height 10. -/
theorem getVoxelTypeAt_water_above_terrain_witness :
    getVoxelTypeAt (fun _ => 0) 1 0 3 0 = BLOCK_WATER ∧
    (terrainHeightPure (fun _ => 0) 1 0 0 < 3 ∧ 3 ≤ waterHeightPure (fun _ => 0) 1 0 0) :=
  ⟨by with_unfolding_all decide,
    getVoxelTypeAt_water_above_terrain (fun _ => 0) 1 0 3 0 (by decide) (by decide)
      (by decide) (by decide) (by with_unfolding_all decide)⟩

/-! ### Chunk mesher claims -/

theorem mem_intRange {lo hi a : ℤ} : a ∈ intRange lo hi ↔ lo ≤ a ∧ a ≤ hi := by
  constructor
  · intro h
    obtain ⟨n, hn, hfn⟩ := List.mem_map.mp h
    have hn2 := List.mem_range.mp hn
    omega
  · intro h
    exact List.mem_map.mpr ⟨(a - lo).toNat, List.mem_range.mpr (by omega), by omega⟩

/-- C5: during face culling, a neighbor lookup whose local coordinate is
outside the chunk in x or z, with y in height range, resolves through the
Voxel Resolver at the corresponding world coordinate (chunk origin plus
local offset), never through the local chunk buffer. -/
theorem voxelAt_out_of_chunk (jsSin : ℚ → ℚ) (seed : ℤ) (voxels : ℤ → ℤ)
    (chunkOriginX chunkOriginZ x y z : ℤ) (hy : 0 ≤ y ∧ y ≤ MAX_HEIGHT)
    (hxz : x < 0 ∨ z < 0 ∨ CHUNK_SIZE ≤ x ∨ CHUNK_SIZE ≤ z) :
    voxelAt jsSin seed voxels chunkOriginX chunkOriginZ x y z =
      getVoxelTypeAt jsSin seed (chunkOriginX + x) y (chunkOriginZ + z) := by
  simp only [voxelAt]
  rw [if_neg (by omega), if_pos hxz]

/-- Witness for C5 at the local coordinate (-1, 0, 0) of the chunk at
origin (0,0). -/
theorem voxelAt_out_of_chunk_witness :
    (((0 : ℤ) ≤ 0 ∧ (0 : ℤ) ≤ MAX_HEIGHT) ∧
      ((-1 : ℤ) < 0 ∨ (0 : ℤ) < 0 ∨ CHUNK_SIZE ≤ -1 ∨ CHUNK_SIZE ≤ 0)) ∧
    voxelAt (fun _ => 0) 1 (fun _ => 0) 0 0 (-1) 0 0 =
      getVoxelTypeAt (fun _ => 0) 1 (0 + -1) 0 (0 + 0) :=
  ⟨⟨⟨le_refl 0, by with_unfolding_all decide⟩, Or.inl (by decide)⟩,
    voxelAt_out_of_chunk (fun _ => 0) 1 (fun _ => 0) 0 0 (-1) 0 0
      ⟨le_refl 0, by with_unfolding_all decide⟩ (Or.inl (by decide))⟩

/-- A chunk buffer holding two stacked water voxels at local (8,5,8) and
(8,6,8), air elsewhere. -/
def waterPairVoxels : ℤ → ℤ := fun idx =>
  if idx = chunkIndex 8 5 8 ∨ idx = chunkIndex 8 6 8 then BLOCK_WATER else BLOCK_AIR

/-- Counterexample to C6 as stated: when the material being meshed is water
itself, a water voxel with a water neighbor does not get all six faces. The
voxel (8,5,8) is of the meshed material (water) and has a water voxel among
its six neighbors (above it), yet the quad of its +y face is not emitted. -/
theorem waterAdjacent_forces_faces_counterexample :
    voxelAt (fun _ => 0) 1 waterPairVoxels 0 0 8 5 8 = BLOCK_WATER ∧
    isWaterAdjacent (fun _ => 0) 1 waterPairVoxels 0 0 8 5 8 = true ∧
    (⟨⟨0, 1, 0⟩, [⟨0, 1, 0⟩, ⟨1, 1, 0⟩, ⟨1, 1, 1⟩, ⟨0, 1, 1⟩], ⟨0, 1, 0⟩⟩ : Face) ∈ faces ∧
    quadFor ⟨⟨0, 1, 0⟩, [⟨0, 1, 0⟩, ⟨1, 1, 0⟩, ⟨1, 1, 1⟩, ⟨0, 1, 1⟩], ⟨0, 1, 0⟩⟩ 8 5 8 ∉
      buildMaterialGreedyGeometry (fun _ => 0) 1 waterPairVoxels BLOCK_WATER 0 0 := by
  with_unfolding_all decide

/-- C6 (amended): in `buildMaterialGeometry`, every voxel of a non-water
material being meshed that has a water voxel among its six axis-aligned
neighbors gets quads for all six of its faces, regardless of whether each
individual neighbor is air or occupied. -/
theorem waterAdjacent_emits_all_faces (jsSin : ℚ → ℚ) (seed : ℤ) (voxels : ℤ → ℤ)
    (materialType chunkOriginX chunkOriginZ x y z : ℤ)
    (hx : 0 ≤ x) (hx2 : x < CHUNK_SIZE) (hz : 0 ≤ z) (hz2 : z < CHUNK_SIZE)
    (hy : 0 ≤ y) (hy2 : y ≤ MAX_HEIGHT)
    (hv : voxelAt jsSin seed voxels chunkOriginX chunkOriginZ x y z = materialType)
    (hmat : materialType ≠ BLOCK_WATER)
    (hadj : isWaterAdjacent jsSin seed voxels chunkOriginX chunkOriginZ x y z = true) :
    ∀ f ∈ faces, quadFor f x y z ∈
      buildMaterialGreedyGeometry jsSin seed voxels materialType chunkOriginX chunkOriginZ := by
  intro f hf
  simp only [buildMaterialGreedyGeometry, List.mem_flatMap]
  refine ⟨y, mem_intRange.mpr ⟨hy, hy2⟩, z, mem_intRange.mpr ⟨hz, by omega⟩, x,
    mem_intRange.mpr ⟨hx, by omega⟩, ?_⟩
  rw [if_neg (by simp [hv])]
  simp only [List.mem_filterMap]
  refine ⟨f, hf, ?_⟩
  rw [if_neg ?_]
  intro hcond
  exact hcond.1 ⟨hmat, hadj⟩

/-- A chunk buffer holding a stone voxel at local (8,5,8) under a water
voxel at (8,6,8), air elsewhere. -/
def stoneUnderWaterVoxels : ℤ → ℤ := fun idx =>
  if idx = chunkIndex 8 5 8 then BLOCK_STONE
  else if idx = chunkIndex 8 6 8 then BLOCK_WATER
  else BLOCK_AIR

/-- Witness for the amended C6: the stone voxel at (8,5,8), water-adjacent
from above, gets all six face quads when stone is meshed. -/
theorem waterAdjacent_emits_all_faces_witness :
    (voxelAt (fun _ => 0) 1 stoneUnderWaterVoxels 0 0 8 5 8 = BLOCK_STONE ∧
      BLOCK_STONE ≠ BLOCK_WATER ∧
      isWaterAdjacent (fun _ => 0) 1 stoneUnderWaterVoxels 0 0 8 5 8 = true) ∧
    (∀ f ∈ faces, quadFor f 8 5 8 ∈
      buildMaterialGreedyGeometry (fun _ => 0) 1 stoneUnderWaterVoxels BLOCK_STONE 0 0) :=
  ⟨⟨by with_unfolding_all decide, by decide, by with_unfolding_all decide⟩,
    waterAdjacent_emits_all_faces (fun _ => 0) 1 stoneUnderWaterVoxels BLOCK_STONE 0 0 8 5 8
      (by decide) (by decide) (by decide) (by decide) (by decide)
      (by with_unfolding_all decide) (by with_unfolding_all decide) (by decide)
      (by with_unfolding_all decide)⟩

/-! ### Noise kernel claim (real-valued model) -/

theorem sin_rat_ne_zero (q : ℚ) (hq : q ≠ 0) : Real.sin ((q : ℚ) : ℝ) ≠ 0 := by
  intro hsin
  obtain ⟨n, hn⟩ := Real.sin_eq_zero_iff.mp hsin
  rcases eq_or_ne n 0 with h0 | h0
  · rw [h0] at hn
    simp only [Int.cast_zero, zero_mul] at hn
    exact hq (by exact_mod_cast hn.symm)
  · apply irrational_pi
    refine ⟨q / (n : ℚ), ?_⟩
    have hnR : ((n : ℤ) : ℝ) ≠ 0 := Int.cast_ne_zero.mpr h0
    push_cast
    field_simp
    linarith [hn]

/-- Core of the seed-sensitivity argument: scaling the sine by C ≥ 1 and
shifting the angle by d with sin(d/2) ≠ 0, some angle A makes the two
fractional parts differ. -/
theorem fract_sin_shift_exists (C d : ℝ) (hC : 1 ≤ C) (hd : Real.sin (d / 2) ≠ 0) :
    ∃ A : ℝ, Int.fract (Real.sin A * C) ≠ Int.fract (Real.sin (A + d) * C) := by
  have hC0 : (0 : ℝ) < C := lt_of_lt_of_le one_pos hC
  have htpos : (0 : ℝ) < 1 / (4 * C) := by positivity
  have ht2 : 1 / (4 * C) ≤ 1 := by
    rw [div_le_one (by positivity)]
    linarith
  refine ⟨Real.arccos (1 / (4 * C)) - d / 2, ?_⟩
  intro h
  obtain ⟨k, hk⟩ := Int.fract_eq_fract.mp h
  have hsin : Real.sin (Real.arccos (1 / (4 * C)) - d / 2) -
      Real.sin (Real.arccos (1 / (4 * C)) - d / 2 + d) =
      -2 * Real.sin (d / 2) * (1 / (4 * C)) := by
    rw [Real.sin_sub_sin]
    have e1 : (Real.arccos (1 / (4 * C)) - d / 2 -
        (Real.arccos (1 / (4 * C)) - d / 2 + d)) / 2 = -(d / 2) := by ring
    have e2 : (Real.arccos (1 / (4 * C)) - d / 2 +
        (Real.arccos (1 / (4 * C)) - d / 2 + d)) / 2 = Real.arccos (1 / (4 * C)) := by ring
    rw [e1, e2, Real.sin_neg, Real.cos_arccos (by linarith) ht2]
    ring
  have hkval : (k : ℝ) = -(Real.sin (d / 2)) / 2 := by
    have hk2 : (k : ℝ) = (Real.sin (Real.arccos (1 / (4 * C)) - d / 2) -
        Real.sin (Real.arccos (1 / (4 * C)) - d / 2 + d)) * C := by
      rw [← hk]
      ring
    rw [hsin] at hk2
    rw [hk2]
    field_simp
    ring
  have habs : |(k : ℝ)| < 1 := by
    have hs1 := Real.sin_le_one (d / 2)
    have hs2 := Real.neg_one_le_sin (d / 2)
    rw [hkval, abs_div, abs_neg]
    rw [abs_of_pos (by norm_num : (0 : ℝ) < 2)]
    rw [div_lt_iff₀ (by norm_num : (0 : ℝ) < 2)]
    rcases abs_cases (Real.sin (d / 2)) with ⟨he, _⟩ | ⟨he, _⟩ <;> rw [he] <;> linarith
  have hk0 : k = 0 := Int.abs_lt_one_iff.mp (by exact_mod_cast habs)
  rw [hk0] at hkval
  simp only [Int.cast_zero] at hkval
  exact hd (by linarith)

/-- C7: the noise primitive `hash2` (real model) is a pure function of
(seed, x, z) — identical calls return identical values — its values lie in
[0, 1), and there exist a coordinate and two distinct world seeds at which
it returns different values. -/
theorem hash2_deterministic_range_seed_sensitive :
    (∀ (seed : ℤ) (x z : ℝ), hash2R seed x z = hash2R seed x z ∧
      0 ≤ hash2R seed x z ∧ hash2R seed x z < 1) ∧
    (∃ (x z : ℝ) (s1 s2 : ℤ), s1 ≠ s2 ∧ hash2R s1 x z ≠ hash2R s2 x z) := by
  constructor
  · intro seed x z
    refine ⟨rfl, ?_, ?_⟩
    · exact Int.fract_nonneg _
    · exact Int.fract_lt_one _
  · have hdq : ((0.1337 * 127.1 + 0.2811 * 311.7 + 0.013 : ℝ) / 2) =
        ((5231257 / 100000 : ℚ) : ℝ) := by norm_num
    have hd : Real.sin ((0.1337 * 127.1 + 0.2811 * 311.7 + 0.013 : ℝ) / 2) ≠ 0 := by
      rw [hdq]
      exact sin_rat_ne_zero (5231257 / 100000) (by norm_num)
    obtain ⟨A, hA⟩ := fract_sin_shift_exists 43758.5453123
      (0.1337 * 127.1 + 0.2811 * 311.7 + 0.013) (by norm_num) hd
    refine ⟨(A - (0.1337 * 127.1 + 0.2811 * 311.7 + 0.013)) / 127.1, 0, 1, 2, by decide, ?_⟩
    intro h
    apply hA
    have e1 : ((A - (0.1337 * 127.1 + 0.2811 * 311.7 + 0.013)) / 127.1 +
        ((1 % 997 : ℤ) : ℝ) * 0.1337) * 127.1 +
        ((0 : ℝ) + ((1 % 577 : ℤ) : ℝ) * 0.2811) * 311.7 + ((1 : ℤ) : ℝ) * 0.013 = A := by
      norm_num
      ring
    have e2 : ((A - (0.1337 * 127.1 + 0.2811 * 311.7 + 0.013)) / 127.1 +
        ((2 % 997 : ℤ) : ℝ) * 0.1337) * 127.1 +
        ((0 : ℝ) + ((2 % 577 : ℤ) : ℝ) * 0.2811) * 311.7 + ((2 : ℤ) : ℝ) * 0.013 =
        A + (0.1337 * 127.1 + 0.2811 * 311.7 + 0.013) := by
      norm_num
      ring
    simpa only [hash2R, e1, e2] using h

/-! ### Chunk Stream Manager claims -/

theorem filter_orderedInsert_dist (d : ℤ) (a : BuildEntry) (l : List BuildEntry) :
    (List.orderedInsert distLE a l).filter (fun e => e.distance = d) =
      if a.distance = d then a :: l.filter (fun e => e.distance = d)
      else l.filter (fun e => e.distance = d) := by
  induction l with
  | nil => by_cases had : a.distance = d <;> simp [List.orderedInsert, had]
  | cons b t ih =>
    simp only [List.orderedInsert]
    by_cases hab : distLE a b
    · rw [if_pos hab, List.filter_cons]
      by_cases had : a.distance = d <;> simp [had]
    · rw [if_neg hab, List.filter_cons, List.filter_cons, ih]
      have hab' : b.distance < a.distance := by simpa [distLE, not_le] using hab
      by_cases had : a.distance = d
      · have hbd : ¬b.distance = d := by omega
        simp [had, hbd]
      · by_cases hbd : b.distance = d <;> simp [had, hbd]

theorem filter_insertionSort_dist (d : ℤ) (l : List BuildEntry) :
    (List.insertionSort distLE l).filter (fun e => e.distance = d) =
      l.filter (fun e => e.distance = d) := by
  induction l with
  | nil => rfl
  | cons a t ih =>
    simp only [List.insertionSort]
    rw [filter_orderedInsert_dist, ih, List.filter_cons]
    by_cases had : a.distance = d <;> simp [had]

theorem drainQueue_built_min (chunks pset : List (ℤ × ℤ)) (q : List BuildEntry)
    (hsort : q.Pairwise distLE) :
    ∀ b ∈ (drainQueue chunks pset q).2.2.2, b ∈ q ∧
      ∀ e ∈ (drainQueue chunks pset q).2.2.1, b.distance ≤ e.distance := by
  induction q generalizing chunks pset with
  | nil => intro b hb; cases hb
  | cons a t ih =>
    simp only [drainQueue]
    by_cases hmem : a.key ∈ chunks
    · rw [if_pos hmem]
      intro b hb
      obtain ⟨hbq, hmin⟩ := ih chunks (pset.erase a.key) hsort.of_cons b hb
      exact ⟨List.mem_cons_of_mem a hbq, hmin⟩
    · rw [if_neg hmem]
      intro b hb
      simp only [List.mem_singleton] at hb
      subst hb
      refine ⟨List.mem_cons_self _ t, ?_⟩
      intro e he
      exact List.rel_of_pairwise_cons hsort he

/-- C8 (amended): on each `processChunkBuildQueue` step, the pending queue
is stably sorted by the Chebyshev distance recorded at enqueue time (a
permutation, nondecreasing in the recorded distance, and entries of equal
recorded distance keep their insertion order), and each chunk built by the
step comes from the pending queue and has recorded distance at most that of
every entry still pending afterwards. -/
theorem processChunkBuildQueue_nearest_recorded (s : CMState) :
    (List.insertionSort distLE s.pendingBuildQueue).Perm s.pendingBuildQueue ∧
    (List.insertionSort distLE s.pendingBuildQueue).Pairwise distLE ∧
    (∀ d : ℤ, (List.insertionSort distLE s.pendingBuildQueue).filter (fun e => e.distance = d) =
      s.pendingBuildQueue.filter (fun e => e.distance = d)) ∧
    (∀ b ∈ processBuilt s, b ∈ s.pendingBuildQueue ∧
      ∀ e ∈ (processChunkBuildQueue s).pendingBuildQueue, b.distance ≤ e.distance) := by
  refine ⟨List.perm_insertionSort distLE s.pendingBuildQueue,
    List.sorted_insertionSort distLE s.pendingBuildQueue,
    fun d => filter_insertionSort_dist d s.pendingBuildQueue, ?_⟩
  intro b hb
  simp only [processBuilt] at hb
  by_cases hemp : s.pendingBuildQueue.isEmpty
  · rw [if_pos hemp] at hb
    cases hb
  · rw [if_neg hemp] at hb
    have hsort := List.sorted_insertionSort distLE s.pendingBuildQueue
    obtain ⟨hbq, hmin⟩ := drainQueue_built_min s.chunks s.pendingBuildSet
      (List.insertionSort distLE s.pendingBuildQueue) hsort b hb
    refine ⟨(List.perm_insertionSort distLE s.pendingBuildQueue).mem_iff.mp hbq, ?_⟩
    intro e he
    apply hmin
    simpa only [processChunkBuildQueue, if_neg hemp] using he

/-- The ChunkManager state after enqueueing chunks (5,0) then (3,0) while
the viewer chunk is (0,0): both entries carry their distance to that old
viewer chunk. -/
def staleDistanceState : CMState :=
  enqueueChunkBuild (enqueueChunkBuild CMState.init 5 0 0 0) 3 0 0 0

/-- Counterexample to C8 as stated: on a later frame the viewer chunk is
(5,0); the dequeue step builds chunk (3,0) — sorted first by its stale
enqueue-time distance 3 — although the pending chunk (5,0) has Chebyshev
distance 0 to the current viewer chunk, strictly less than (3,0)'s distance
2. The chunk built is therefore not the nearest pending chunk to the
viewer's current chunk coordinate at that frame. -/
theorem processChunkBuildQueue_current_distance_counterexample :
    ((5 : ℤ), (0 : ℤ)) ∈ staleDistanceState.pendingBuildQueue.map (fun e => e.key) ∧
    max |(5 : ℤ) - 5| |(0 : ℤ) - 0| < max |(3 : ℤ) - 5| |(0 : ℤ) - 0| ∧
    (processChunkBuildQueue staleDistanceState).chunks = [(3, 0)] ∧
    ((5 : ℤ), (0 : ℤ)) ∉ (processChunkBuildQueue staleDistanceState).chunks := by
  with_unfolding_all decide

/-- Witness for the amended C8: in the two-entry stale state the built
entry is the recorded-distance-3 chunk (3,0), drawn from the pending queue,
and its recorded distance bounds that of everything left pending. -/
theorem processChunkBuildQueue_nearest_recorded_witness :
    (⟨3, 0, (3, 0), 3⟩ : BuildEntry) ∈ processBuilt staleDistanceState ∧
    ((⟨3, 0, (3, 0), 3⟩ : BuildEntry) ∈ staleDistanceState.pendingBuildQueue ∧
      ∀ e ∈ (processChunkBuildQueue staleDistanceState).pendingBuildQueue,
        (⟨3, 0, (3, 0), 3⟩ : BuildEntry).distance ≤ e.distance) :=
  ⟨by with_unfolding_all decide,
    (processChunkBuildQueue_nearest_recorded staleDistanceState).2.2.2
      ⟨3, 0, (3, 0), 3⟩ (by with_unfolding_all decide)⟩

/-- The streaming invariant of the ChunkManager: the pending-dedup set has
exactly the keys of the pending queue (and both are duplicate-free), and no
key is simultaneously a built chunk and a pending queue entry. -/
def CMInv (s : CMState) : Prop :=
  (∀ k : ℤ × ℤ, k ∈ s.pendingBuildSet ↔ k ∈ s.pendingBuildQueue.map (fun e => e.key)) ∧
  (s.pendingBuildQueue.map (fun e => e.key)).Nodup ∧
  s.pendingBuildSet.Nodup ∧
  (∀ k : ℤ × ℤ, k ∈ s.chunks → k ∉ s.pendingBuildQueue.map (fun e => e.key))

theorem drainQueue_inv (chunks pset : List (ℤ × ℤ)) (q : List BuildEntry)
    (hiff : ∀ k, k ∈ pset ↔ k ∈ q.map (fun e => e.key))
    (hnd : (q.map (fun e => e.key)).Nodup)
    (hpd : pset.Nodup)
    (hdisj : ∀ k, k ∈ chunks → k ∉ q.map (fun e => e.key)) :
    (∀ k, k ∈ (drainQueue chunks pset q).2.1 ↔
      k ∈ (drainQueue chunks pset q).2.2.1.map (fun e => e.key)) ∧
    ((drainQueue chunks pset q).2.2.1.map (fun e => e.key)).Nodup ∧
    (drainQueue chunks pset q).2.1.Nodup ∧
    (∀ k, k ∈ (drainQueue chunks pset q).1 →
      k ∉ (drainQueue chunks pset q).2.2.1.map (fun e => e.key)) := by
  induction q generalizing chunks pset with
  | nil =>
    simp only [drainQueue]
    refine ⟨?_, by simp, hpd, by simp⟩
    intro k
    simpa using hiff k
  | cons a t ih =>
    simp only [List.map_cons, List.nodup_cons] at hnd
    have hanotint : a.key ∉ t.map (fun e => e.key) := hnd.1
    have herase : ∀ k, k ∈ pset.erase a.key ↔ k ∈ t.map (fun e => e.key) := by
      intro k
      rw [hpd.mem_erase_iff]
      constructor
      · rintro ⟨hne, hk⟩
        rcases (List.mem_cons).mp ((hiff k).mp hk) with h | h
        · exact absurd h hne
        · exact h
      · intro hk
        refine ⟨fun he => hanotint (he ▸ hk), (hiff k).mpr (List.mem_cons_of_mem _ hk)⟩
    simp only [drainQueue]
    by_cases hmem : a.key ∈ chunks
    · exact absurd (List.mem_cons_self _ _) (hdisj a.key hmem)
    · rw [if_neg hmem]
      refine ⟨herase, hnd.2, hpd.erase a.key, ?_⟩
      intro k hk
      by_cases hw : inWorld a.cx a.cz ∧ a.key ∉ chunks
      · rw [if_pos hw] at hk
        rcases List.mem_append.mp hk with h | h
        · exact fun hkt => hdisj k h (List.mem_cons_of_mem _ hkt)
        · simp only [List.mem_singleton] at h
          exact h ▸ hanotint
      · rw [if_neg hw] at hk
        exact fun hkt => hdisj k hk (List.mem_cons_of_mem _ hkt)

/-- C10: the streaming invariant — the pending-dedup set contains exactly
the keys of the pending build queue, and no chunk key is simultaneously in
the built-chunks map and in the pending queue — holds for a fresh manager
and is preserved by `enqueueChunkBuild`, `processChunkBuildQueue`, and
`clear`. -/
theorem chunkManager_invariant :
    CMInv CMState.init ∧
    (∀ s cx cz camChunkX camChunkZ, CMInv s →
      CMInv (enqueueChunkBuild s cx cz camChunkX camChunkZ)) ∧
    (∀ s, CMInv s → CMInv (processChunkBuildQueue s)) ∧
    (∀ s, CMInv s → CMInv s.clear) := by
  refine ⟨⟨by simp [CMState.init], by simp [CMState.init], by simp [CMState.init],
      by simp [CMState.init]⟩, ?_, ?_, ?_⟩
  · intro s cx cz camChunkX camChunkZ hinv
    obtain ⟨hiff, hnd, hpd, hdisj⟩ := hinv
    simp only [enqueueChunkBuild]
    by_cases hguard : (cx, cz) ∈ s.chunks ∨ (cx, cz) ∈ s.pendingBuildSet ∨ ¬inWorld cx cz
    · rw [if_pos hguard]
      exact ⟨hiff, hnd, hpd, hdisj⟩
    · rw [if_neg hguard]
      push_neg at hguard
      obtain ⟨hnc, hns, _⟩ := hguard
      have hnq : (cx, cz) ∉ s.pendingBuildQueue.map (fun e => e.key) := fun h => hns ((hiff _).mpr h)
      refine ⟨?_, ?_, ?_, ?_⟩
      · intro k
        simp only [List.map_append, List.mem_append, List.map_cons, List.map_nil,
          List.mem_singleton, List.mem_cons]
        rw [hiff k]
      · simp only [List.map_append, List.map_cons, List.map_nil]
        exact List.Nodup.append hnd (List.nodup_singleton _) (by simpa using hnq)
      · exact List.Nodup.append hpd (List.nodup_singleton _) (by simpa using hns)
      · intro k hk
        simp only [List.map_append, List.mem_append, List.map_cons, List.map_nil,
          List.mem_singleton]
        rintro (h | h)
        · exact hdisj k hk h
        · exact hnc (h ▸ hk)
  · intro s hinv
    obtain ⟨hiff, hnd, hpd, hdisj⟩ := hinv
    simp only [processChunkBuildQueue]
    by_cases hemp : s.pendingBuildQueue.isEmpty
    · rw [if_pos hemp]
      exact ⟨hiff, hnd, hpd, hdisj⟩
    · rw [if_neg hemp]
      have hperm : List.Perm
          ((List.insertionSort distLE s.pendingBuildQueue).map (fun e => e.key))
          (s.pendingBuildQueue.map (fun e => e.key)) :=
        (List.perm_insertionSort distLE s.pendingBuildQueue).map _
      have h1 : ∀ k, k ∈ s.pendingBuildSet ↔
          k ∈ (List.insertionSort distLE s.pendingBuildQueue).map (fun e => e.key) := by
        intro k
        rw [hiff k, hperm.mem_iff]
      have h2 := hperm.nodup_iff.mpr hnd
      have h4 : ∀ k, k ∈ s.chunks →
          k ∉ (List.insertionSort distLE s.pendingBuildQueue).map (fun e => e.key) := by
        intro k hk
        rw [hperm.mem_iff]
        exact hdisj k hk
      exact drainQueue_inv s.chunks s.pendingBuildSet
        (List.insertionSort distLE s.pendingBuildQueue) h1 h2 hpd h4
  · intro s _
    exact ⟨by simp [CMState.clear], by simp [CMState.clear], by simp [CMState.clear],
      by simp [CMState.clear]⟩

/-- Witness for C10: the invariant established for the fresh manager, then
pushed through an enqueue and a process step by the theorem itself. -/
theorem chunkManager_invariant_witness :
    CMInv (processChunkBuildQueue (enqueueChunkBuild CMState.init 3 0 0 0)) :=
  chunkManager_invariant.2.2.1 (enqueueChunkBuild CMState.init 3 0 0 0)
    (chunkManager_invariant.2.1 CMState.init 3 0 0 0 chunkManager_invariant.1)

end Sandbox
